import Mathlib

/-!
Verification of the chunk-analysis orchestration pipeline of the
CodebaseLLM repository: a shallow embedding of the Oracle Client
(src/analyzer/llm_integration.py), the Dispatcher/Aggregator fold
(src/analyzer/knowledge_extractor.py) and the project-summary step,
together with proofs of the specified properties.

Python values exchanged with the oracle are JSON-like dictionaries;
they are modelled by the inductive type Json below.  Python structural
equality on such values is modelled by Json.beq.
-/

/-- JSON-like Python values (dicts, lists, strings, numbers, booleans,
None) as produced by the JSON parse of the oracle response and consumed
by the aggregation fold.  Numbers are modelled as integers; no claim
exercises fractional numbers. -/
inductive Json where
  | null
  | bool (b : Bool)
  | num (n : Int)
  | str (s : String)
  | arr (elems : List Json)
  | obj (fields : List (String × Json))

mutual

/-- Field-order-sensitive structural equality on JSON-like values.
This is a refinement of the Python == used by the `not in` dedup check
at knowledge_extractor.py line 82: Python dict equality ignores key
order (it is modelled exactly by Json.pyEq below), while this
comparison distinguishes key-order-variant objects.  Two values equal
under this comparison are equal Python values; the fold based on it
(extractFold) is used by the claims whose conclusions do not depend on
the dedup granularity, and the fold based on Json.pyEq
(extractFoldPy) by the dedup claim itself. -/
def Json.beq : Json → Json → Bool
  | .null, .null => true
  | .bool a, .bool b => a == b
  | .num a, .num b => a == b
  | .str a, .str b => a == b
  | .arr a, .arr b => Json.beqList a b
  | .obj a, .obj b => Json.beqFields a b
  | _, _ => false

/-- Elementwise structural equality of JSON lists. -/
def Json.beqList : List Json → List Json → Bool
  | [], [] => true
  | a :: as, b :: bs => Json.beq a b && Json.beqList as bs
  | _, _ => false

/-- Fieldwise structural equality of JSON objects. -/
def Json.beqFields : List (String × Json) → List (String × Json) → Bool
  | [], [] => true
  | (k, v) :: as, (l, w) :: bs => k == l && Json.beq v w && Json.beqFields as bs
  | _, _ => false

end

mutual

theorem Json.beq_refl : ∀ a : Json, Json.beq a a = true
  | .null => rfl
  | .bool b => by simp [Json.beq]
  | .num n => by simp [Json.beq]
  | .str s => by simp [Json.beq]
  | .arr xs => by simp only [Json.beq]; exact Json.beqList_refl xs
  | .obj fs => by simp only [Json.beq]; exact Json.beqFields_refl fs

theorem Json.beqList_refl : ∀ xs : List Json, Json.beqList xs xs = true
  | [] => rfl
  | x :: xs => by
      simp only [Json.beqList, Bool.and_eq_true]
      exact ⟨Json.beq_refl x, Json.beqList_refl xs⟩

theorem Json.beqFields_refl : ∀ fs : List (String × Json), Json.beqFields fs fs = true
  | [] => rfl
  | (k, v) :: fs => by
      simp only [Json.beqFields, Bool.and_eq_true]
      exact ⟨⟨by simp, Json.beq_refl v⟩, Json.beqFields_refl fs⟩

end

/-- Lookup of a key among the fields of a JSON object (Python `d[key]`,
`d.get(key)` and `key in d`). -/
def lookupField : List (String × Json) → String → Option Json
  | [], _ => none
  | (k, v) :: tl, key => if k == key then some v else lookupField tl key

/-- Lookup of a key in a JSON value; returns none when the value is not
an object or the key is absent. -/
def Json.lookupKey : Json → String → Option Json
  | .obj fields, key => lookupField fields key
  | _, _ => none

/-- Python `key in d` for a JSON object value. -/
def Json.hasKey (j : Json) (key : String) : Bool :=
  (j.lookupKey key).isSome

/-- Python dict insertion/update: replaces the value of an existing key
in place, otherwise appends the new binding at the end. -/
def dictInsert : List (String × Json) → String → Json → List (String × Json)
  | [], k, v => [(k, v)]
  | (k', v') :: tl, k, v =>
    if k' == k then (k', v) :: tl else (k', v') :: dictInsert tl k v

/-- Python whitespace characters matched by the regex class \s and
stripped by str.strip (ASCII subset; the source never feeds non-ASCII
whitespace through this path). -/
def isPyWs (c : Char) : Bool :=
  c = ' ' || c = '\t' || c = '\n' || c = '\x0d' || c = '\x0c' || c = '\x0b'

/-- Embedding of the first substitution of _clean_json_string
(llm_integration.py line 42): the regex sub of ^[^{]* with the empty
string removes the maximal prefix of characters other than the first
opening brace. -/
def dropBeforeBrace (cs : List Char) : List Char :=
  cs.dropWhile (fun c => c != '{')

/-- Embedding of the second substitution of _clean_json_string
(llm_integration.py line 43): the regex sub of [^}]*$ removes the
maximal suffix of characters other than the last closing brace. -/
def dropAfterLastBrace (cs : List Char) : List Char :=
  (cs.reverse.dropWhile (fun c => c != '}')).reverse

/-- Embedding of the third substitution of _clean_json_string
(llm_integration.py line 45): re.sub replaces every non-overlapping
left-to-right match of a comma, optional whitespace and a closing brace
or bracket by the closing brace or bracket alone, resuming the scan
after the replacement. -/
def stripTrailingCommasF : Nat → List Char → List Char
  | 0, cs => cs
  | _ + 1, [] => []
  | fuel + 1, c :: rest =>
    if c = ',' then
      match rest.dropWhile isPyWs with
      | '}' :: tail => '}' :: stripTrailingCommasF fuel tail
      | ']' :: tail => ']' :: stripTrailingCommasF fuel tail
      | _ => ',' :: stripTrailingCommasF fuel rest
    else
      c :: stripTrailingCommasF fuel rest

/-- The trailing-comma substitution at its natural fuel: every scan
step consumes at least one input character, so the input length bounds
the number of steps and the fuel-exhaustion branch is unreachable. -/
def stripTrailingCommas (cs : List Char) : List Char :=
  stripTrailingCommasF cs.length cs

/-- Python str.strip on a character list. -/
def pyStrip (cs : List Char) : List Char :=
  ((cs.dropWhile isPyWs).reverse.dropWhile isPyWs).reverse

/-- Embedding of LLMIntegration._clean_json_string
(llm_integration.py lines 36 to 48): removes text before the first
opening brace and after the last closing brace, strips trailing commas
before a closing brace or bracket, then strips whitespace. -/
def cleanJsonString (s : String) : String :=
  String.mk (pyStrip (stripTrailingCommas (dropAfterLastBrace (dropBeforeBrace s.toList))))

/-- Boolean test that the first character list starts with the second. -/
def leadsWith : List Char → List Char → Bool
  | _, [] => true
  | [], _ :: _ => false
  | h :: hs, p :: ps => h == p && leadsWith hs ps

/-- Boolean test that the second character list occurs contiguously
inside the first. -/
def hasSubseg : List Char → List Char → Bool
  | [], pat => pat.isEmpty
  | h :: hs, pat => leadsWith (h :: hs) pat || hasSubseg hs pat

/-- Boolean substring test used to embed the Python `in` operator on
strings. -/
def containsSubstr (hay pat : String) : Bool :=
  hasSubseg hay.toList pat.toList

/-- Python str.lower (ASCII letters; the classifier substrings are
ASCII). -/
def pyLower (s : String) : String :=
  String.mk (s.toList.map Char.toLower)

/-- Embedding of the rate-limit classification of llm_integration.py
line 73: the exception message indicates rate limiting when its
lower-cased text contains "rate limit", or the text contains "429" or
"rate_limit_exceeded". -/
def isRateLimitMsg (msg : String) : Bool :=
  containsSubstr (pyLower msg) "rate limit" ||
  containsSubstr msg "429" ||
  containsSubstr msg "rate_limit_exceeded"

/-- JSON whitespace accepted between tokens. -/
def isJsonWs (c : Char) : Bool :=
  c = ' ' || c = '\t' || c = '\n' || c = '\x0d'

/-- Decode one JSON string escape character; unicode escapes are not
modelled (no claim exercises them). -/
def escChar (c : Char) : Option Char :=
  if c = '"' then some c
  else if c = '\\' then some c
  else if c = '/' then some c
  else if c = 'n' then some '\n'
  else if c = 't' then some '\t'
  else if c = 'r' then some '\x0d'
  else if c = 'b' then some '\x08'
  else if c = 'f' then some '\x0c'
  else none

/-- Parse the body of a JSON string after the opening quote, returning
the decoded characters and the remaining input. -/
def parseStrBody : Nat → List Char → Option (List Char × List Char)
  | 0, _ => none
  | _, [] => none
  | fuel + 1, c :: rest =>
    if c = '"' then some ([], rest)
    else if c = '\\' then
      match rest with
      | [] => none
      | e :: rest' =>
        match escChar e with
        | none => none
        | some d =>
          match parseStrBody fuel rest' with
          | none => none
          | some (body, rem) => some (d :: body, rem)
    else
      match parseStrBody fuel rest with
      | none => none
      | some (body, rem) => some (c :: body, rem)

/-- Accumulate a decimal natural number literal. -/
def digitsToNat (ds : List Char) : Nat :=
  ds.foldl (fun acc c => acc * 10 + (c.toNat - 48)) 0

/-- Parse a JSON integer literal; fractional and exponent forms are not
modelled (no claim exercises them). -/
def parseIntNum (cs : List Char) : Option (Int × List Char) :=
  let (sign, cs') :=
    match cs with
    | '-' :: tl => (true, tl)
    | _ => (false, cs)
  let ds := cs'.takeWhile Char.isDigit
  let rest := cs'.dropWhile Char.isDigit
  if ds.isEmpty then none
  else
    match rest with
    | '.' :: _ => none
    | 'e' :: _ => none
    | 'E' :: _ => none
    | _ =>
      let n : Int := Int.ofNat (digitsToNat ds)
      some (if sign then -n else n, rest)

mutual

/-- Parse one JSON value, modelling the spec's normalization step 3
"then parse as JSON" performed by the external JSON output parser
(standard JSON grammar; integers only). -/
def parseVal : Nat → List Char → Option (Json × List Char)
  | 0, _ => none
  | fuel + 1, cs =>
    match cs.dropWhile isJsonWs with
    | 'n' :: 'u' :: 'l' :: 'l' :: rest => some (.null, rest)
    | 't' :: 'r' :: 'u' :: 'e' :: rest => some (.bool true, rest)
    | 'f' :: 'a' :: 'l' :: 's' :: 'e' :: rest => some (.bool false, rest)
    | '"' :: rest =>
      match parseStrBody fuel rest with
      | some (body, rem) => some (.str (String.mk body), rem)
      | none => none
    | '[' :: rest =>
      (match rest.dropWhile isJsonWs with
      | ']' :: rem => some (.arr [], rem)
      | _ =>
        match parseItems fuel rest [] with
        | some (vs, rem) => some (.arr vs, rem)
        | none => none)
    | '{' :: rest =>
      (match rest.dropWhile isJsonWs with
      | '}' :: rem => some (.obj [], rem)
      | _ =>
        match parseFields fuel rest [] with
        | some (fs, rem) => some (.obj fs, rem)
        | none => none)
    | c :: rest =>
      if c.isDigit || c = '-' then
        match parseIntNum (c :: rest) with
        | some (n, rem) => some (.num n, rem)
        | none => none
      else none
    | [] => none

/-- Parse the comma-separated elements of a JSON array after the
opening bracket. -/
def parseItems : Nat → List Char → List Json → Option (List Json × List Char)
  | 0, _, _ => none
  | fuel + 1, cs, acc =>
    match parseVal fuel cs with
    | none => none
    | some (v, rest) =>
      match rest.dropWhile isJsonWs with
      | ',' :: rest' => parseItems fuel rest' (acc ++ [v])
      | ']' :: rest' => some (acc ++ [v], rest')
      | _ => none

/-- Parse the comma-separated key-value pairs of a JSON object after
the opening brace; a repeated key overrides the earlier binding, as in
Python. -/
def parseFields : Nat → List Char → List (String × Json) →
    Option (List (String × Json) × List Char)
  | 0, _, _ => none
  | fuel + 1, cs, acc =>
    match cs.dropWhile isJsonWs with
    | '"' :: rest =>
      match parseStrBody fuel rest with
      | none => none
      | some (key, rest1) =>
        match rest1.dropWhile isJsonWs with
        | ':' :: rest2 =>
          (match parseVal fuel rest2 with
          | none => none
          | some (v, rest3) =>
            match rest3.dropWhile isJsonWs with
            | ',' :: rest4 => parseFields fuel rest4 (dictInsert acc (String.mk key) v)
            | '}' :: rest4 => some (dictInsert acc (String.mk key) v, rest4)
            | _ => none)
        | _ => none
    | _ => none

end

/-- Parse a complete JSON document: one value with only whitespace
around it; anything else fails.  This embeds the parse step applied to
the cleaned response at llm_integration.py line 69. -/
def parseJson (s : String) : Option Json :=
  let cs := s.toList
  match parseVal (4 * cs.length + 4) cs with
  | some (j, rest) => if (rest.dropWhile isJsonWs).isEmpty then some j else none
  | none => none

/-- Outcome of one call of the oracle transport for a given attempt
number: either the raw textual response or an exception carrying a
message (spec section 6, Oracle transport). -/
inductive CallOutcome where
  | ok (raw : String)
  | raises (msg : String)

/-- Result of analyze_code_chunk as observed by its caller: a normal
return of the parsed JSON dict (line 69), the terminal rate-limit error
dict return (line 81), or an exception propagated out of the method by
the bare raise (line 79). -/
inductive AnalyzeResult where
  | parsed (j : Json)
  | errorReturn (j : Json)
  | raised (msg : String)

/-- The terminal error dict returned at llm_integration.py line 81
after exhausting retries. -/
def rateLimitErrDict (max_retries : Nat) : Json :=
  Json.obj [("error", Json.str ("Rate limit exceeded after " ++ toString max_retries ++ " retries."))]

/-- Embedding of the retry loop of LLMIntegration.analyze_code_chunk
(llm_integration.py lines 60 to 81).  The first index is the current
attempt counter, the second the remaining number of loop iterations
(max_retries minus attempt).  parseMsg gives the message of the
exception raised by the external JSON parser on unparsable text.  The
returned list records the back-off sleeps performed, in order. -/
def analyzeLoop (oracle : Nat → CallOutcome) (parseMsg : String → String)
    (base_delay : ℚ) (max_retries : Nat) : Nat → Nat → AnalyzeResult × List ℚ
  | _, 0 => (.errorReturn (rateLimitErrDict max_retries), [])
  | attempt, remaining + 1 =>
    match oracle attempt with
    | .ok raw =>
      let cleaned := cleanJsonString raw
      (match parseJson cleaned with
      | some j => (.parsed j, [])
      | none =>
        if isRateLimitMsg (parseMsg cleaned) then
          let r := analyzeLoop oracle parseMsg base_delay max_retries (attempt + 1) remaining
          (r.1, base_delay * 2 ^ attempt :: r.2)
        else (.raised (parseMsg cleaned), []))
    | .raises msg =>
      if isRateLimitMsg msg then
        let r := analyzeLoop oracle parseMsg base_delay max_retries (attempt + 1) remaining
        (r.1, base_delay * 2 ^ attempt :: r.2)
      else (.raised msg, [])

/-- Embedding of LLMIntegration.analyze_code_chunk
(llm_integration.py lines 50 to 81): runs the retry loop starting at
attempt 0 with max_retries iterations available.  The chunk text only
feeds the prompt and never influences control flow, so it is not a
parameter; the oracle function gives the transport's behaviour at each
attempt. -/
def analyzeCodeChunk (oracle : Nat → CallOutcome) (parseMsg : String → String)
    (max_retries : Nat) (base_delay : ℚ) : AnalyzeResult × List ℚ :=
  analyzeLoop oracle parseMsg base_delay max_retries 0 max_retries

/-- Stable identity of a chunk: the originating file and the position
of the chunk within it (the 'file' and 'chunk_index' fields of the
chunk dicts produced by the Chunk Source). -/
structure ChunkInfo where
  file : String
  chunk_index : Nat

/-- Per-chunk outcome as observed by the aggregation loop of
KnowledgeExtractor.extract: either future.result() raised an exception
(carrying the exception's class name and message, knowledge_extractor.py
lines 63 to 72), or it returned the analysis dict.  The dict is an
object by construction: analyze_code_chunk returns either the parse of
a cleaned string that starts with an opening brace, or its own error
dict. -/
inductive ChunkOutcome where
  | errored (tyName msg : String)
  | result (fields : List (String × Json))

/-- One contribution produced by a chunk, tagged with the aggregate
sequence it is appended to. -/
inductive Entry where
  | ov (j : Json)
  | mth (j : Json)
  | cx (j : Json)
  | nt (j : Json)

/-- Python iteration over a JSON-like value (the `for method in
result['methods']` loop): lists yield their elements, strings their
characters, dicts their keys; numbers, booleans and None are not
iterable and raise a TypeError, which aborts extract. -/
def pyIter : Json → Option (List Json)
  | .arr xs => some xs
  | .str s => some (s.toList.map (fun c => Json.str (String.mk [c])))
  | .obj fs => some (fs.map (fun kv => Json.str kv.1))
  | _ => none

/-- The overview record appended at knowledge_extractor.py lines 75
to 79. -/
def overviewEntry (ci : ChunkInfo) (v : Json) : Json :=
  Json.obj [("file", Json.str ci.file),
    ("chunk_index", Json.num (Int.ofNat ci.chunk_index)), ("overview", v)]

/-- The complexity record appended at knowledge_extractor.py lines 85
to 89. -/
def complexityEntry (ci : ChunkInfo) (v : Json) : Json :=
  Json.obj [("file", Json.str ci.file),
    ("chunk_index", Json.num (Int.ofNat ci.chunk_index)), ("complexity", v)]

/-- The notes record appended at knowledge_extractor.py lines 67 to 71,
90 to 95 and 96 to 101. -/
def notesEntry (ci : ChunkInfo) (v : Json) : Json :=
  Json.obj [("file", Json.str ci.file),
    ("chunk_index", Json.num (Int.ofNat ci.chunk_index)), ("notes", v)]

/-- The fallback note payload of knowledge_extractor.py line 100:
result.get of raw_response, then of error, then a fixed message. -/
def fallbackNote (fields : List (String × Json)) : Json :=
  (lookupField fields "raw_response").getD
    ((lookupField fields "error").getD (Json.str "Unknown LLM response"))

/-- Contributions of one chunk in the aggregation loop of
KnowledgeExtractor.extract (knowledge_extractor.py lines 61 to 101), in
append order: a failed future yields one failure note; a returned dict
with at least one recognized key yields its overview, method, complexity
and notes contributions; a returned dict with no recognized key yields
one fallback note.  The value none models the TypeError raised when the
methods value is not iterable, which aborts extract without a return
value. -/
def chunkEntries : ChunkInfo × ChunkOutcome → Option (List Entry)
  | (ci, .errored tyName msg) =>
    some [.nt (notesEntry ci (Json.str ("LLM error: " ++ tyName ++ ": " ++ msg)))]
  | (ci, .result fields) =>
    if (lookupField fields "overview").isSome || (lookupField fields "methods").isSome ||
        (lookupField fields "complexity").isSome || (lookupField fields "notes").isSome then
      match (match lookupField fields "methods" with
             | some v => (pyIter v).map (fun ms => ms.map Entry.mth)
             | none => some []) with
      | none => none
      | some mthEntries =>
        let ovEntries :=
          match lookupField fields "overview" with
          | some v => [Entry.ov (overviewEntry ci v)]
          | none => []
        let cxEntries :=
          match lookupField fields "complexity" with
          | some v => [Entry.cx (complexityEntry ci v)]
          | none => []
        let ntEntries :=
          match lookupField fields "notes" with
          | some v => [Entry.nt (notesEntry ci v)]
          | none => []
        some (ovEntries ++ mthEntries ++ cxEntries ++ ntEntries)
    else
      some [.nt (notesEntry ci (fallbackNote fields))]

/-- The aggregate knowledge structure built by extract and
extract_async (knowledge_extractor.py lines 52 to 58 and 138 to 144). -/
structure Knowledge where
  project_info : Json
  overview : List Json
  methods : List Json
  complexity : List Json
  notes : List Json

/-- List membership of a value under the field-order-sensitive
comparison Json.beq: a refinement of the `not in` check at
knowledge_extractor.py line 82 (the exact Python test is
containsJsonPy below). -/
def containsJson (l : List Json) (m : Json) : Bool :=
  l.any (fun x => Json.beq x m)

/-- The dedup append of knowledge_extractor.py lines 81 to 83 under the
field-order-sensitive comparison (the exact Python version is
insertIfNewPy below). -/
def insertIfNew (l : List Json) (m : Json) : List Json :=
  if containsJson l m then l else l ++ [m]

/-- Append one contribution to the aggregate as the source does at
knowledge_extractor.py lines 73 to 95, with the method dedup of lines
81 to 83 taken at the field-order-sensitive comparison. -/
def foldEntry (kn : Knowledge) : Entry → Knowledge
  | .ov j => { kn with overview := kn.overview ++ [j] }
  | .mth j => { kn with methods := insertIfNew kn.methods j }
  | .cx j => { kn with complexity := kn.complexity ++ [j] }
  | .nt j => { kn with notes := kn.notes ++ [j] }

/-- The empty aggregate created at knowledge_extractor.py lines 52
to 58. -/
def initKnowledge (pi : Json) : Knowledge :=
  { project_info := pi, overview := [], methods := [], complexity := [], notes := [] }

/-- Embedding of the aggregation loop of KnowledgeExtractor.extract
(knowledge_extractor.py lines 59 to 102) over the per-chunk outcomes in
the order as_completed delivers them, with the method dedup taken at
the field-order-sensitive comparison (extractFoldPy below uses the
exact Python equality).  Returns none when the loop raises
(non-iterable methods value), mirroring extract aborting without a
return value. -/
def extractFold (pi : Json) (pairs : List (ChunkInfo × ChunkOutcome)) : Option Knowledge :=
  if pairs.all (fun p => (chunkEntries p).isSome) then
    some (((pairs.map (fun p => (chunkEntries p).getD [])).flatten).foldl foldEntry (initKnowledge pi))
  else none

/-- Embedding of the project-summary step of KnowledgeExtractor.extract
(knowledge_extractor.py lines 36 to 51): project_info starts as the
empty dict; when a readme document exists, one oracle call plus parse
either replaces it by the parsed object or, on any failure, by a dict
with the single key readme_error holding the failure message.
callSummary bundles the external read, oracle call and parse. -/
def summarizeStep (document : Option String) (callSummary : String → Except String Json) : Json :=
  match document with
  | none => Json.obj []
  | some content =>
    match callSummary content with
    | .ok info => info
    | .error msg => Json.obj [("readme_error", Json.str msg)]

/-- Embedding of KnowledgeExtractor.extract (knowledge_extractor.py
lines 19 to 102): the project-summary step followed by the aggregation
fold.  The vectorstore construction has no effect on the returned
knowledge and is omitted. -/
def extract (document : Option String) (callSummary : String → Except String Json)
    (pairs : List (ChunkInfo × ChunkOutcome)) : Option Knowledge :=
  extractFold (summarizeStep document callSummary) pairs

/-- Embedding of the guard of main_async (main.py lines 31 to 33): for
an empty chunk sequence main prints a message and returns before
constructing the extractor, so no aggregate is produced. -/
def mainRunsExtraction (code_chunks : List ChunkInfo) : Bool :=
  !code_chunks.isEmpty

/-- Python dict construction with a double-star merge: the bindings of
the second dict are inserted into the first in order, overriding equal
keys. -/
def mergeFields (base kvs : List (String × Json)) : List (String × Json) :=
  kvs.foldl (fun d kv => dictInsert d kv.1 kv.2) base

/-- The tagged overview item built at knowledge_extractor.py lines 160
to 165. -/
def asyncOverviewItem (ci : ChunkInfo) (v : Json) : Json :=
  Json.obj [("type", Json.str "overview"), ("file", Json.str ci.file),
    ("chunk_index", Json.num (Int.ofNat ci.chunk_index)), ("overview", v)]

/-- The tagged complexity item built at knowledge_extractor.py lines
170 to 175. -/
def asyncComplexityItem (ci : ChunkInfo) (v : Json) : Json :=
  Json.obj [("type", Json.str "complexity"), ("file", Json.str ci.file),
    ("chunk_index", Json.num (Int.ofNat ci.chunk_index)), ("complexity", v)]

/-- The tagged notes item built at knowledge_extractor.py lines 152 to
157, 177 to 182 and 184 to 189. -/
def asyncNoteItem (ci : ChunkInfo) (v : Json) : Json :=
  Json.obj [("type", Json.str "notes"), ("file", Json.str ci.file),
    ("chunk_index", Json.num (Int.ofNat ci.chunk_index)), ("notes", v)]

/-- The tagged method items built at knowledge_extractor.py lines 166
to 168: each element of the methods value is spread into a dict with a
type tag.  Iterating a non-iterable methods value, or spreading a
non-dict element, raises a TypeError that propagates through
asyncio.gather and aborts extract_async; an empty string or empty dict
iterates zero times and yields no items. -/
def asyncMethodItems : Json → Option (List Json)
  | .arr ms =>
    ms.mapM (fun m =>
      match m with
      | .obj kvs => some (Json.obj (mergeFields [("type", Json.str "methods")] kvs))
      | _ => none)
  | .str s => if s.isEmpty then some [] else none
  | .obj fs => if fs.isEmpty then some [] else none
  | _ => none

/-- Contributions of one chunk in extract_async
(knowledge_extractor.py lines 146 to 190), in append order: a failed
analysis yields one failure note item; otherwise the items for each
recognized key, and one fallback note item when no item was produced.
The value none models a TypeError escaping the task. -/
def asyncChunkItems : ChunkInfo × ChunkOutcome → Option (List Json)
  | (ci, .errored tyName msg) =>
    some [asyncNoteItem ci (Json.str ("LLM error: " ++ tyName ++ ": " ++ msg))]
  | (ci, .result fields) =>
    match (match lookupField fields "methods" with
           | some v => asyncMethodItems v
           | none => some []) with
    | none => none
    | some mthItems =>
      let ovItems :=
        match lookupField fields "overview" with
        | some v => [asyncOverviewItem ci v]
        | none => []
      let cxItems :=
        match lookupField fields "complexity" with
        | some v => [asyncComplexityItem ci v]
        | none => []
      let ntItems :=
        match lookupField fields "notes" with
        | some v => [asyncNoteItem ci v]
        | none => []
      let out := ovItems ++ mthItems ++ cxItems ++ ntItems
      some (if out.isEmpty then [asyncNoteItem ci (fallbackNote fields)] else out)

/-- The dispatch of one gathered item into the aggregate
(knowledge_extractor.py lines 193 to 203); method items are appended
without any deduplication. -/
def asyncDispatch (kn : Knowledge) (item : Json) : Knowledge :=
  match item.lookupKey "type" with
  | some (Json.str t) =>
    if t = "overview" then { kn with overview := kn.overview ++ [item] }
    else if t = "methods" then { kn with methods := kn.methods ++ [item] }
    else if t = "complexity" then { kn with complexity := kn.complexity ++ [item] }
    else if t = "notes" then { kn with notes := kn.notes ++ [item] }
    else kn
  | _ => kn

/-- Embedding of KnowledgeExtractor.extract_async
(knowledge_extractor.py lines 104 to 213): per-chunk item lists are
gathered by asyncio.gather in task submission order, i.e. input order,
independently of the completion order under the bounded semaphore, and
then dispatched sequentially into the aggregate. -/
def extract_async (document : Option String) (callSummary : String → Except String Json)
    (pairs : List (ChunkInfo × ChunkOutcome)) : Option Knowledge :=
  if pairs.all (fun p => (asyncChunkItems p).isSome) then
    some (((pairs.map (fun p => (asyncChunkItems p).getD [])).flatten).foldl asyncDispatch
      (initKnowledge (summarizeStep document callSummary)))
  else none

/-- The method component of an entry. -/
def Entry.mthPart : Entry → Option Json
  | .mth j => some j
  | _ => none

/-- Whether an entry is appended to one of the overview, complexity or
notes sequences (method facts go to the deduplicated methods sequence
instead). -/
def Entry.isSeqContribution : Entry → Bool
  | .mth _ => false
  | _ => true

/-- Number of entries a chunk contributes to the overview, complexity
and notes sequences together (failure notes included). -/
def contribCount (p : ChunkInfo × ChunkOutcome) : Nat :=
  ((chunkEntries p).getD []).countP Entry.isSeqContribution

/-- A returned analysis dict that contains the key methods but none of
overview, complexity and notes: the only outcome shape whose
contributions all go to the methods sequence. -/
def methodsOnlyResult : ChunkOutcome → Bool
  | .errored _ _ => false
  | .result fields =>
    (lookupField fields "methods").isSome &&
    (lookupField fields "overview").isNone &&
    (lookupField fields "complexity").isNone &&
    (lookupField fields "notes").isNone

/-- The key-containment half of Python dict equality: every key bound
in the first field list is also bound in the second. -/
def keysIncluded (gs fs : List (String × Json)) : Bool :=
  gs.all (fun kv => (lookupField fs kv.1).isSome)

mutual

/-- Python == on JSON-like values, as used by the `not in` dedup check
at knowledge_extractor.py line 82: None, strings and lists compare as
expected; numbers compare by value, with booleans identified with 0
and 1 (Python True == 1; floats are outside the model, so numeric
equality is integer equality); dicts compare key-order-insensitively:
every binding of each side must match the other side's value at the
same key. -/
def Json.pyEq : Json → Json → Bool
  | .null, .null => true
  | .bool a, .bool b => a == b
  | .bool a, .num b => (if a then (1 : Int) else 0) == b
  | .num a, .bool b => a == (if b then (1 : Int) else 0)
  | .num a, .num b => a == b
  | .str a, .str b => a == b
  | .arr a, .arr b => Json.pyEqList a b
  | .obj fs, .obj gs => Json.pyEqFieldsSub fs gs && keysIncluded gs fs
  | _, _ => false
termination_by a b => sizeOf a + sizeOf b

/-- Elementwise Python equality of lists. -/
def Json.pyEqList : List Json → List Json → Bool
  | [], [] => true
  | a :: as, b :: bs => Json.pyEq a b && Json.pyEqList as bs
  | _, _ => false
termination_by as bs => sizeOf as + sizeOf bs

/-- Every binding of the first field list matches, under Python
equality, the second field list's value at the same key. -/
def Json.pyEqFieldsSub : List (String × Json) → List (String × Json) → Bool
  | [], _ => true
  | (k, v) :: fs, gs => Json.pyEqFieldLookup k v gs && Json.pyEqFieldsSub fs gs
termination_by fs gs => sizeOf fs + sizeOf gs

/-- Look up the first binding of the key and compare the value under
Python equality (the lookup is fused into the recursion). -/
def Json.pyEqFieldLookup : String → Json → List (String × Json) → Bool
  | _, _, [] => false
  | k, v, (k', w) :: gs => if k' == k then Json.pyEq v w else Json.pyEqFieldLookup k v gs
termination_by k v gs => sizeOf v + sizeOf gs

end

/-- The Python membership test of a value in a list (the `not in` check
at knowledge_extractor.py line 82), elementwise by Python ==. -/
def containsJsonPy (l : List Json) (m : Json) : Bool :=
  l.any (fun x => Json.pyEq x m)

/-- The dedup append of knowledge_extractor.py lines 81 to 83 at the
exact Python equality. -/
def insertIfNewPy (l : List Json) (m : Json) : List Json :=
  if containsJsonPy l m then l else l ++ [m]

/-- The per-contribution append of knowledge_extractor.py lines 73 to
95 with the method dedup of lines 81 to 83 at the exact Python
equality. -/
def foldEntryPy (kn : Knowledge) : Entry → Knowledge
  | .ov j => { kn with overview := kn.overview ++ [j] }
  | .mth j => { kn with methods := insertIfNewPy kn.methods j }
  | .cx j => { kn with complexity := kn.complexity ++ [j] }
  | .nt j => { kn with notes := kn.notes ++ [j] }

/-- The aggregation loop of KnowledgeExtractor.extract
(knowledge_extractor.py lines 59 to 102) with the method dedup at the
exact Python equality; otherwise identical to extractFold. -/
def extractFoldPy (pi : Json) (pairs : List (ChunkInfo × ChunkOutcome)) : Option Knowledge :=
  if pairs.all (fun p => (chunkEntries p).isSome) then
    some (((pairs.map (fun p => (chunkEntries p).getD [])).flatten).foldl foldEntryPy
      (initKnowledge pi))
  else none

/-- KnowledgeExtractor.extract (knowledge_extractor.py lines 19 to 102)
with the method dedup at the exact Python equality; otherwise identical
to extract. -/
def extractPy (document : Option String) (callSummary : String → Except String Json)
    (pairs : List (ChunkInfo × ChunkOutcome)) : Option Knowledge :=
  extractFoldPy (summarizeStep document callSummary) pairs

/-- A MethodFact of the data model rendered as its JSON object: the
three fields name, signature and description that the prompt of
llm_integration.py lines 147 to 150 instructs the oracle to emit. -/
def methodFact (name signature description : String) : Json :=
  Json.obj [("name", Json.str name), ("signature", Json.str signature),
    ("description", Json.str description)]

theorem Json.eq_of_beq_sized :
    ∀ (n : Nat) (a b : Json), sizeOf a ≤ n → Json.beq a b = true → a = b := by
  intro n
  induction n with
  | zero =>
    intro a b hs _
    exfalso
    cases a <;> simp at hs <;> omega
  | succ n ih =>
    have hauxL : ∀ (xs ys : List Json), sizeOf xs ≤ n → Json.beqList xs ys = true → xs = ys := by
      intro xs
      induction xs with
      | nil =>
        intro ys _ hb
        cases ys with
        | nil => rfl
        | cons y ys => simp [Json.beqList] at hb
      | cons x xs ihx =>
        intro ys hs hb
        cases ys with
        | nil => simp [Json.beqList] at hb
        | cons y ys =>
          simp only [Json.beqList, Bool.and_eq_true] at hb
          simp only [List.cons.sizeOf_spec] at hs
          have hx : x = y := ih x y (by omega) hb.1
          have hxs : xs = ys := ihx ys (by omega) hb.2
          rw [hx, hxs]
    have hauxF : ∀ (fs gs : List (String × Json)), sizeOf fs ≤ n →
        Json.beqFields fs gs = true → fs = gs := by
      intro fs
      induction fs with
      | nil =>
        intro gs _ hb
        cases gs with
        | nil => rfl
        | cons g gs => simp [Json.beqFields] at hb
      | cons f fs ihf =>
        intro gs hs hb
        cases gs with
        | nil =>
          rcases f with ⟨k, v⟩
          simp [Json.beqFields] at hb
        | cons g gs =>
          rcases f with ⟨k, v⟩
          rcases g with ⟨l, w⟩
          simp only [Json.beqFields, Bool.and_eq_true] at hb
          simp only [List.cons.sizeOf_spec, Prod.mk.sizeOf_spec] at hs
          have hk : k = l := by
            have := hb.1.1
            simpa using this
          have hv : v = w := ih v w (by omega) hb.1.2
          have hfs : fs = gs := ihf gs (by omega) hb.2
          rw [hk, hv, hfs]
    intro a b hs hb
    cases a with
    | null => cases b <;> simp [Json.beq] at hb <;> rfl
    | bool x =>
      cases b <;> simp [Json.beq] at hb
      rw [hb]
    | num x =>
      cases b <;> simp [Json.beq] at hb
      rw [hb]
    | str x =>
      cases b <;> simp [Json.beq] at hb
      rw [hb]
    | arr xs =>
      cases b with
      | arr ys =>
        simp only [Json.beq] at hb
        simp only [Json.arr.sizeOf_spec] at hs
        rw [hauxL xs ys (by omega) hb]
      | null => simp [Json.beq] at hb
      | bool y => simp [Json.beq] at hb
      | num y => simp [Json.beq] at hb
      | str y => simp [Json.beq] at hb
      | obj gs => simp [Json.beq] at hb
    | obj fs =>
      cases b with
      | obj gs =>
        simp only [Json.beq] at hb
        simp only [Json.obj.sizeOf_spec] at hs
        rw [hauxF fs gs (by omega) hb]
      | null => simp [Json.beq] at hb
      | bool y => simp [Json.beq] at hb
      | num y => simp [Json.beq] at hb
      | str y => simp [Json.beq] at hb
      | arr ys => simp [Json.beq] at hb

theorem Json.eq_of_beq (a b : Json) (h : Json.beq a b = true) : a = b :=
  Json.eq_of_beq_sized (sizeOf a) a b (le_refl _) h

theorem Json.beq_iff_eq (a b : Json) : Json.beq a b = true ↔ a = b :=
  ⟨Json.eq_of_beq a b, fun h => h ▸ Json.beq_refl a⟩

instance : DecidableEq Json :=
  fun a b => decidable_of_iff (Json.beq a b = true) (Json.beq_iff_eq a b)

theorem containsJson_iff (l : List Json) (m : Json) : containsJson l m = true ↔ m ∈ l := by
  simp only [containsJson, List.any_eq_true, Json.beq_iff_eq]
  constructor
  · rintro ⟨x, hx, he⟩
    exact he ▸ hx
  · intro h
    exact ⟨m, h, rfl⟩

theorem insertIfNew_eq (l : List Json) (m : Json) :
    insertIfNew l m = if m ∈ l then l else l ++ [m] := by
  by_cases h : m ∈ l
  · simp [insertIfNew, (containsJson_iff l m).mpr h, h]
  · have hc : containsJson l m = false := by
      cases hc : containsJson l m
      · rfl
      · exact absurd ((containsJson_iff l m).mp hc) h
    simp [insertIfNew, hc, h]

theorem insertIfNew_nodup {l : List Json} (h : l.Nodup) (m : Json) :
    (insertIfNew l m).Nodup := by
  rw [insertIfNew_eq]
  by_cases hm : m ∈ l
  · rw [if_pos hm]
    exact h
  · rw [if_neg hm]
    simp [List.nodup_append, h, hm]

theorem insFold_nodup : ∀ (ms : List Json) {l : List Json}, l.Nodup →
    (ms.foldl insertIfNew l).Nodup := by
  intro ms
  induction ms with
  | nil => intro l h; exact h
  | cons m ms ih =>
    intro l h
    exact ih (insertIfNew_nodup h m)

theorem foldEntries_seq_length : ∀ (es : List Entry) (kn : Knowledge),
    (es.foldl foldEntry kn).overview.length + (es.foldl foldEntry kn).complexity.length +
      (es.foldl foldEntry kn).notes.length =
      kn.overview.length + kn.complexity.length + kn.notes.length +
        es.countP Entry.isSeqContribution := by
  intro es
  induction es with
  | nil => intro kn; simp
  | cons e es ih =>
    intro kn
    cases e <;> simp only [List.foldl_cons, foldEntry] <;> rw [ih] <;>
      simp [Entry.isSeqContribution, List.countP_cons] <;> omega

theorem countP_flatten_eq (p : Entry → Bool) : ∀ (ls : List (List Entry)),
    (ls.flatten).countP p = (ls.map (fun l => l.countP p)).sum := by
  intro ls
  induction ls with
  | nil => simp
  | cons l ls ih => simp [List.countP_append, ih]

theorem length_le_sum_of_pos : ∀ (ns : List Nat), (∀ n ∈ ns, 1 ≤ n) → ns.length ≤ ns.sum := by
  intro ns
  induction ns with
  | nil => intro _; simp
  | cons n ns ih =>
    intro h
    have h1 : 1 ≤ n := h n (List.mem_cons_self n ns)
    have h2 : ns.length ≤ ns.sum := ih (fun m hm => h m (List.mem_cons_of_mem n hm))
    simp only [List.length_cons, List.sum_cons]
    omega

theorem chunkEntries_pos (ci : ChunkInfo) (oc : ChunkOutcome) (es : List Entry)
    (h : chunkEntries (ci, oc) = some es) (hm : methodsOnlyResult oc = false) :
    0 < es.countP Entry.isSeqContribution := by
  cases oc with
  | errored tyName msg =>
    simp only [chunkEntries, Option.some.injEq] at h
    subst h
    simp [List.countP_cons, Entry.isSeqContribution]
  | result fields =>
    simp only [chunkEntries] at h
    split at h
    · split at h
      · exact absurd h (by simp)
      · rename_i ms hmm
        simp only [Option.some.injEq] at h
        subst h
        cases hov : lookupField fields "overview" <;>
          cases hcx : lookupField fields "complexity" <;>
            cases hnt : lookupField fields "notes" <;>
              simp_all [methodsOnlyResult, List.countP_append, List.countP_cons,
                Entry.isSeqContribution] <;>
              omega
    · simp only [Option.some.injEq] at h
      subst h
      simp [List.countP_cons, Entry.isSeqContribution]

theorem extractFold_eq_some {pi : Json} {pairs : List (ChunkInfo × ChunkOutcome)} {kn : Knowledge}
    (h : extractFold pi pairs = some kn) :
    (∀ p ∈ pairs, (chunkEntries p).isSome = true) ∧
    kn = ((pairs.map (fun p => (chunkEntries p).getD [])).flatten).foldl foldEntry
      (initKnowledge pi) := by
  unfold extractFold at h
  split at h
  · rename_i hall
    refine ⟨fun p hp => ?_, ?_⟩
    · exact List.all_eq_true.mp hall p hp
    · injection h with h
      exact h.symm
  · cases h

/-- Claim C1, amended: every per-chunk outcome is folded exactly once,
and the total number of contributions to the overview, complexity and
notes sequences (failure notes included) is the sum of the per-chunk
contribution counts; provided no chunk's result is a success carrying
the methods key but none of overview, complexity and notes, every chunk
contributes at least one entry, so no chunk's outcome is lost at any
concurrency level (runtime faults arrive as errored outcomes and are
folded as failure notes). -/
theorem C1_nothing_lost (pi : Json) (pairs : List (ChunkInfo × ChunkOutcome)) (kn : Knowledge)
    (hfold : extractFold pi pairs = some kn)
    (hnm : ∀ p ∈ pairs, methodsOnlyResult p.2 = false) :
    kn.overview.length + kn.complexity.length + kn.notes.length =
      (pairs.map contribCount).sum ∧
    pairs.length ≤ kn.overview.length + kn.complexity.length + kn.notes.length := by
  obtain ⟨hall, hkn⟩ := extractFold_eq_some hfold
  subst hkn
  have hlen := foldEntries_seq_length
    ((pairs.map (fun p => (chunkEntries p).getD [])).flatten) (initKnowledge pi)
  have hflat := countP_flatten_eq Entry.isSeqContribution
    (pairs.map (fun p => (chunkEntries p).getD []))
  have hmap : ((pairs.map (fun p => (chunkEntries p).getD [])).map
      (fun l => l.countP Entry.isSeqContribution)) = pairs.map contribCount := by
    rw [List.map_map]
    rfl
  have hsum : ((pairs.map (fun p => (chunkEntries p).getD [])).flatten).countP
      Entry.isSeqContribution = (pairs.map contribCount).sum := by
    rw [hflat, hmap]
  have hpos : ∀ n ∈ pairs.map contribCount, 1 ≤ n := by
    intro n hn
    obtain ⟨p, hp, rfl⟩ := List.mem_map.mp hn
    obtain ⟨es, hes⟩ := Option.isSome_iff_exists.mp (hall p hp)
    have h1 : 0 < es.countP Entry.isSeqContribution :=
      chunkEntries_pos p.1 p.2 es hes (hnm p hp)
    simp only [contribCount, hes, Option.getD_some]
    omega
  constructor
  · rw [hlen, hsum]
    simp [initKnowledge]
  · have h2 := length_le_sum_of_pos (pairs.map contribCount) hpos
    rw [List.length_map] at h2
    rw [hlen, hsum]
    simp only [initKnowledge, List.length_nil]
    omega

/-- Claim C1 counterexample: a single chunk whose analysis result is
the dict holding only the key methods bound to the empty list is
processed without error, yet the folded aggregate has empty overview,
complexity and notes sequences, so the number of contributions across
those sequences is 0 and not the number of input chunks, 1. -/
theorem C1_counterexample :
    extractFold (Json.obj [])
        [((⟨"a.py", 0⟩ : ChunkInfo), ChunkOutcome.result [("methods", Json.arr [])])] =
      some { project_info := Json.obj [], overview := [], methods := [],
             complexity := [], notes := [] } ∧
    ({ project_info := Json.obj [], overview := [], methods := [],
       complexity := [], notes := [] } : Knowledge).overview.length +
      ({ project_info := Json.obj [], overview := [], methods := [],
         complexity := [], notes := [] } : Knowledge).complexity.length +
      ({ project_info := Json.obj [], overview := [], methods := [],
         complexity := [], notes := [] } : Knowledge).notes.length ≠
      [((⟨"a.py", 0⟩ : ChunkInfo), ChunkOutcome.result [("methods", Json.arr [])])].length :=
  ⟨rfl, by decide⟩

/-- Claim C1 witness: two chunks, one returning an overview dict and
one whose processing raised, fold to an aggregate with one overview
entry and one failure note; the theorem applies and gives that the two
chunks contribute at least two entries. -/
theorem C1_witness :
    [((⟨"a.py", 0⟩ : ChunkInfo), ChunkOutcome.result [("overview", Json.str "o")]),
      ((⟨"b.py", 1⟩ : ChunkInfo), ChunkOutcome.errored "ValueError" "boom")].length ≤
      ({ project_info := Json.obj [],
         overview := [overviewEntry ⟨"a.py", 0⟩ (Json.str "o")], methods := [],
         complexity := [],
         notes := [notesEntry ⟨"b.py", 1⟩ (Json.str "LLM error: ValueError: boom")] } :
        Knowledge).overview.length +
      ({ project_info := Json.obj [],
         overview := [overviewEntry ⟨"a.py", 0⟩ (Json.str "o")], methods := [],
         complexity := [],
         notes := [notesEntry ⟨"b.py", 1⟩ (Json.str "LLM error: ValueError: boom")] } :
        Knowledge).complexity.length +
      ({ project_info := Json.obj [],
         overview := [overviewEntry ⟨"a.py", 0⟩ (Json.str "o")], methods := [],
         complexity := [],
         notes := [notesEntry ⟨"b.py", 1⟩ (Json.str "LLM error: ValueError: boom")] } :
        Knowledge).notes.length :=
  (C1_nothing_lost (Json.obj [])
    [((⟨"a.py", 0⟩ : ChunkInfo), ChunkOutcome.result [("overview", Json.str "o")]),
      ((⟨"b.py", 1⟩ : ChunkInfo), ChunkOutcome.errored "ValueError" "boom")]
    { project_info := Json.obj [],
      overview := [overviewEntry ⟨"a.py", 0⟩ (Json.str "o")], methods := [],
      complexity := [],
      notes := [notesEntry ⟨"b.py", 1⟩ (Json.str "LLM error: ValueError: boom")] }
    rfl (by decide)).2

theorem pyEqFieldLookup_iff (k : String) (v : Json) : ∀ (gs : List (String × Json)),
    Json.pyEqFieldLookup k v gs = true ↔
      ∃ u, lookupField gs k = some u ∧ Json.pyEq v u = true := by
  intro gs
  induction gs with
  | nil => simp [Json.pyEqFieldLookup, lookupField]
  | cons kw gs ih =>
    rcases kw with ⟨l, w⟩
    cases hk : l == k with
    | true => simp [Json.pyEqFieldLookup, lookupField, hk]
    | false => simp [Json.pyEqFieldLookup, lookupField, hk, ih]

theorem pyEqFieldsSub_iff : ∀ (fs gs : List (String × Json)),
    Json.pyEqFieldsSub fs gs = true ↔
      ∀ kv ∈ fs, ∃ u, lookupField gs kv.1 = some u ∧ Json.pyEq kv.2 u = true := by
  intro fs gs
  induction fs with
  | nil => simp [Json.pyEqFieldsSub]
  | cons kv fs ih =>
    rcases kv with ⟨k, v⟩
    simp [Json.pyEqFieldsSub, ih, pyEqFieldLookup_iff]

theorem keysIncluded_iff (gs fs : List (String × Json)) :
    keysIncluded gs fs = true ↔ ∀ kv ∈ gs, (lookupField fs kv.1).isSome = true := by
  simp [keysIncluded, List.all_eq_true]

theorem pyEq_str_right (v : Json) (x : String) (h : Json.pyEq v (Json.str x) = true) :
    v = Json.str x := by
  cases v with
  | str a =>
    simp only [Json.pyEq, beq_iff_eq] at h
    rw [h]
  | null => simp [Json.pyEq] at h
  | bool b => simp [Json.pyEq] at h
  | num m => simp [Json.pyEq] at h
  | arr xs => simp [Json.pyEq] at h
  | obj fs => simp [Json.pyEq] at h

theorem lookupField_mem : ∀ (fs : List (String × Json)) (k : String) (v : Json),
    lookupField fs k = some v → (k, v) ∈ fs := by
  intro fs k v
  induction fs with
  | nil => intro h; simp [lookupField] at h
  | cons kw fs ih =>
    rcases kw with ⟨l, w⟩
    intro h
    cases hk : l == k with
    | true =>
      simp only [lookupField, hk, if_true, Option.some.injEq] at h
      have hl : l = k := by simpa using hk
      subst hl
      subst h
      exact List.mem_cons_self _ _
    | false =>
      simp only [lookupField, hk, Bool.false_eq_true, if_false] at h
      exact List.mem_cons_of_mem _ (ih h)

theorem pyEq_methodFact_elim (fs : List (String × Json)) (n s d : String)
    (h : Json.pyEq (Json.obj fs) (methodFact n s d) = true) :
    (∀ kv ∈ fs, (kv.1 = "name" ∧ kv.2 = Json.str n) ∨
      (kv.1 = "signature" ∧ kv.2 = Json.str s) ∨
      (kv.1 = "description" ∧ kv.2 = Json.str d)) ∧
    (lookupField fs "name").isSome = true ∧
    (lookupField fs "signature").isSome = true ∧
    (lookupField fs "description").isSome = true := by
  simp only [methodFact, Json.pyEq, Bool.and_eq_true] at h
  obtain ⟨hsub, hkeys⟩ := h
  rw [pyEqFieldsSub_iff] at hsub
  rw [keysIncluded_iff] at hkeys
  refine ⟨?_, hkeys ("name", Json.str n) (by simp),
    hkeys ("signature", Json.str s) (by simp),
    hkeys ("description", Json.str d) (by simp)⟩
  intro kv hkv
  obtain ⟨u, hu, hpe⟩ := hsub kv hkv
  have hmem := lookupField_mem _ _ _ hu
  simp only [List.mem_cons, List.not_mem_nil, or_false, Prod.mk.injEq] at hmem
  rcases hmem with ⟨h1, h2⟩ | ⟨h1, h2⟩ | ⟨h1, h2⟩
  · exact Or.inl ⟨h1, pyEq_str_right _ _ (h2 ▸ hpe)⟩
  · exact Or.inr (Or.inl ⟨h1, pyEq_str_right _ _ (h2 ▸ hpe)⟩)
  · exact Or.inr (Or.inr ⟨h1, pyEq_str_right _ _ (h2 ▸ hpe)⟩)

theorem pyEq_methodFact_trans (a b : Json) (n s d : String)
    (ha : Json.pyEq a (methodFact n s d) = true)
    (hb : Json.pyEq b (methodFact n s d) = true) :
    Json.pyEq a b = true := by
  cases a with
  | null => simp [Json.pyEq, methodFact] at ha
  | bool x => simp [Json.pyEq, methodFact] at ha
  | num x => simp [Json.pyEq, methodFact] at ha
  | str x => simp [Json.pyEq, methodFact] at ha
  | arr xs => simp [Json.pyEq, methodFact] at ha
  | obj fs =>
    cases b with
    | null => simp [Json.pyEq, methodFact] at hb
    | bool x => simp [Json.pyEq, methodFact] at hb
    | num x => simp [Json.pyEq, methodFact] at hb
    | str x => simp [Json.pyEq, methodFact] at hb
    | arr xs => simp [Json.pyEq, methodFact] at hb
    | obj gs =>
      obtain ⟨hfa, hna, hsa, hda⟩ := pyEq_methodFact_elim fs n s d ha
      obtain ⟨hfb, hnb, hsb, hdb⟩ := pyEq_methodFact_elim gs n s d hb
      simp only [Json.pyEq, Bool.and_eq_true]
      constructor
      · rw [pyEqFieldsSub_iff]
        intro kv hkv
        rcases hfa kv hkv with ⟨h1, h2⟩ | ⟨h1, h2⟩ | ⟨h1, h2⟩
        · obtain ⟨w, hw⟩ := Option.isSome_iff_exists.mp hnb
          have hwmem := lookupField_mem _ _ _ hw
          rcases hfb _ hwmem with ⟨_, h4⟩ | ⟨h3, _⟩ | ⟨h3, _⟩
          · have h4' : w = Json.str n := h4
            exact ⟨w, by rw [h1, hw], by rw [h2, h4']; simp [Json.pyEq]⟩
          · have h3' : ("name" : String) = "signature" := h3
            exact absurd h3' (by decide)
          · have h3' : ("name" : String) = "description" := h3
            exact absurd h3' (by decide)
        · obtain ⟨w, hw⟩ := Option.isSome_iff_exists.mp hsb
          have hwmem := lookupField_mem _ _ _ hw
          rcases hfb _ hwmem with ⟨h3, _⟩ | ⟨_, h4⟩ | ⟨h3, _⟩
          · have h3' : ("signature" : String) = "name" := h3
            exact absurd h3' (by decide)
          · have h4' : w = Json.str s := h4
            exact ⟨w, by rw [h1, hw], by rw [h2, h4']; simp [Json.pyEq]⟩
          · have h3' : ("signature" : String) = "description" := h3
            exact absurd h3' (by decide)
        · obtain ⟨w, hw⟩ := Option.isSome_iff_exists.mp hdb
          have hwmem := lookupField_mem _ _ _ hw
          rcases hfb _ hwmem with ⟨h3, _⟩ | ⟨h3, _⟩ | ⟨_, h4⟩
          · have h3' : ("description" : String) = "name" := h3
            exact absurd h3' (by decide)
          · have h3' : ("description" : String) = "signature" := h3
            exact absurd h3' (by decide)
          · have h4' : w = Json.str d := h4
            exact ⟨w, by rw [h1, hw], by rw [h2, h4']; simp [Json.pyEq]⟩
      · rw [keysIncluded_iff]
        intro kv hkv
        rcases hfb kv hkv with ⟨h1, _⟩ | ⟨h1, _⟩ | ⟨h1, _⟩
        · rw [h1]; exact hna
        · rw [h1]; exact hsa
        · rw [h1]; exact hda

theorem insertIfNewPy_pairwise (m : Json) {l : List Json}
    (h : l.Pairwise (fun a b => Json.pyEq a b = false)) :
    (insertIfNewPy l m).Pairwise (fun a b => Json.pyEq a b = false) := by
  cases hc : containsJsonPy l m with
  | true => simpa [insertIfNewPy, hc] using h
  | false =>
    have hall : ∀ x ∈ l, Json.pyEq x m = false := by
      intro x hx
      cases hpe : Json.pyEq x m with
      | false => rfl
      | true =>
        have hc2 : containsJsonPy l m = true := by
          simp only [containsJsonPy, List.any_eq_true]
          exact ⟨x, hx, hpe⟩
        simp [hc2] at hc
    simp only [insertIfNewPy, hc, Bool.false_eq_true, if_false]
    rw [List.pairwise_append]
    refine ⟨h, List.pairwise_singleton _ _, ?_⟩
    intro a ha b hb
    simp only [List.mem_singleton] at hb
    subst hb
    exact hall a ha

theorem insFoldPy_pairwise : ∀ (ms : List Json) {l : List Json},
    l.Pairwise (fun a b => Json.pyEq a b = false) →
    (ms.foldl insertIfNewPy l).Pairwise (fun a b => Json.pyEq a b = false) := by
  intro ms
  induction ms with
  | nil => intro l h; exact h
  | cons m ms ih =>
    intro l h
    exact ih (insertIfNewPy_pairwise m h)

theorem foldEntriesPy_methods : ∀ (es : List Entry) (kn : Knowledge),
    (es.foldl foldEntryPy kn).methods =
      (es.filterMap Entry.mthPart).foldl insertIfNewPy kn.methods := by
  intro es
  induction es with
  | nil => intro kn; simp
  | cons e es ih =>
    intro kn
    cases e <;> simp [List.foldl_cons, foldEntryPy, ih, Entry.mthPart, List.filterMap_cons]

theorem extractFoldPy_eq_some {pi : Json} {pairs : List (ChunkInfo × ChunkOutcome)}
    {kn : Knowledge} (h : extractFoldPy pi pairs = some kn) :
    (∀ p ∈ pairs, (chunkEntries p).isSome = true) ∧
    kn = ((pairs.map (fun p => (chunkEntries p).getD [])).flatten).foldl foldEntryPy
      (initKnowledge pi) := by
  unfold extractFoldPy at h
  split at h
  · rename_i hall
    refine ⟨fun p hp => ?_, ?_⟩
    · exact List.all_eq_true.mp hall p hp
    · injection h with h
      exact h.symm
  · cases h

/-- Claim C5, amended: in the synchronous extract pipeline the methods
sequence of the returned aggregate contains no two entries that are
equal under Python structural equality (key-order-insensitive dict
equality, Json.pyEq) — in particular no two entries realize the same
MethodFact triple of name, signature and description — for every input
chunk sequence and every combination of oracle results; the
asynchronous extract_async pipeline appends method items without any
deduplication and its methods sequence can contain structurally-equal
duplicates. -/
theorem C5_methods_no_structural_dup (document : Option String)
    (callSummary : String → Except String Json)
    (pairs : List (ChunkInfo × ChunkOutcome)) (kn : Knowledge)
    (h : extractPy document callSummary pairs = some kn) :
    kn.methods.Pairwise (fun a b => Json.pyEq a b = false) ∧
    kn.methods.Pairwise (fun a b => ∀ n s d : String,
      Json.pyEq a (methodFact n s d) = true →
      Json.pyEq b (methodFact n s d) = true → False) := by
  simp only [extractPy] at h
  obtain ⟨hall, hkn⟩ := extractFoldPy_eq_some h
  subst hkn
  rw [foldEntriesPy_methods]
  have h1 := insFoldPy_pairwise
    ((((pairs.map (fun p => (chunkEntries p).getD [])).flatten).filterMap Entry.mthPart))
    (List.Pairwise.nil)
  refine ⟨h1, List.Pairwise.imp ?_ h1⟩
  intro a b hab n s d hma hmb
  rw [pyEq_methodFact_trans a b n s d hma hmb] at hab
  cases hab

/-- Claim C5 counterexample: in extract_async, two chunks whose results
carry the same single method fact yield an aggregate whose methods
sequence holds two structurally-equal entries, so the claimed dedup
fails for the asynchronous pipeline. -/
theorem C5_counterexample :
    extract_async none (fun _ => Except.error "down")
        [((⟨"a.py", 0⟩ : ChunkInfo), ChunkOutcome.result
            [("methods", Json.arr [Json.obj [("name", Json.str "f"),
              ("signature", Json.str "f()"), ("description", Json.str "d")]])]),
          ((⟨"b.py", 1⟩ : ChunkInfo), ChunkOutcome.result
            [("methods", Json.arr [Json.obj [("name", Json.str "f"),
              ("signature", Json.str "f()"), ("description", Json.str "d")]])])] =
      some { project_info := Json.obj [], overview := [],
             methods := [Json.obj [("type", Json.str "methods"), ("name", Json.str "f"),
                 ("signature", Json.str "f()"), ("description", Json.str "d")],
               Json.obj [("type", Json.str "methods"), ("name", Json.str "f"),
                 ("signature", Json.str "f()"), ("description", Json.str "d")]],
             complexity := [], notes := [] } ∧
    ¬ ([Json.obj [("type", Json.str "methods"), ("name", Json.str "f"),
         ("signature", Json.str "f()"), ("description", Json.str "d")],
        Json.obj [("type", Json.str "methods"), ("name", Json.str "f"),
         ("signature", Json.str "f()"), ("description", Json.str "d")]] :
        List Json).Nodup :=
  ⟨rfl, by simp⟩

/-- Claim C5 witness: two chunks carrying key-order variants of the
same method fact fold through extractPy to an aggregate holding that
fact once (the Python-equality dedup removes the variant), and the
theorem gives that no two of the kept entries are Python-equal. -/
theorem C5_witness :
    ({ project_info := Json.obj [], overview := [],
       methods := [Json.obj [("name", Json.str "f"), ("signature", Json.str "f()"),
         ("description", Json.str "d")]],
       complexity := [], notes := [] } : Knowledge).methods.Pairwise
      (fun a b => Json.pyEq a b = false) :=
  (C5_methods_no_structural_dup none (fun _ => Except.error "down")
    [((⟨"a.py", 0⟩ : ChunkInfo), ChunkOutcome.result
        [("methods", Json.arr [Json.obj [("name", Json.str "f"),
          ("signature", Json.str "f()"), ("description", Json.str "d")]])]),
      ((⟨"b.py", 1⟩ : ChunkInfo), ChunkOutcome.result
        [("methods", Json.arr [Json.obj [("signature", Json.str "f()"),
          ("name", Json.str "f"), ("description", Json.str "d")]])])]
    { project_info := Json.obj [], overview := [],
      methods := [Json.obj [("name", Json.str "f"), ("signature", Json.str "f()"),
        ("description", Json.str "d")]],
      complexity := [], notes := [] }
    (by simp [extractPy, extractFoldPy, chunkEntries, lookupField, pyIter,
      foldEntryPy, insertIfNewPy, containsJsonPy, initKnowledge, summarizeStep,
      Json.pyEq, Json.pyEqFieldsSub, Json.pyEqFieldLookup, keysIncluded,
      Entry.mthPart])).1

theorem analyzeLoop_allRateLimited (oracle : Nat → CallOutcome) (parseMsg : String → String)
    (base_delay : ℚ) (max_retries : Nat) :
    ∀ (remaining attempt : Nat),
      (∀ k, attempt ≤ k → k < attempt + remaining →
        ∃ m, oracle k = CallOutcome.raises m ∧ isRateLimitMsg m = true) →
      analyzeLoop oracle parseMsg base_delay max_retries attempt remaining =
        (AnalyzeResult.errorReturn (rateLimitErrDict max_retries),
          (List.range' attempt remaining).map (fun k => base_delay * 2 ^ k)) := by
  intro remaining
  induction remaining with
  | zero =>
    intro attempt _
    simp [analyzeLoop]
  | succ n ih =>
    intro attempt h
    obtain ⟨m, hm, hrl⟩ := h attempt (le_refl _) (by omega)
    have hrec := ih (attempt + 1) (fun k hk1 hk2 => h k (by omega) (by omega))
    simp only [analyzeLoop, hm, hrl, if_true, hrec]
    rw [List.range'_succ]
    simp

/-- Claim C2, confirmed: when the oracle call raises a rate-limit
classified error at every attempt, analyze_code_chunk performs exactly
max_retries attempts, sleeping base_delay times 2 to the k after
attempt k for k = 0, 1, ..., max_retries - 1, and then returns the
terminal rate-limit-exhausted failure dict (the code's representation
of the Failure with errorKind RateLimitExceeded). -/
theorem C2_retry_backoff (oracle : Nat → CallOutcome) (parseMsg : String → String)
    (base_delay : ℚ) (max_retries : Nat)
    (h : ∀ k, k < max_retries →
      ∃ m, oracle k = CallOutcome.raises m ∧ isRateLimitMsg m = true) :
    analyzeCodeChunk oracle parseMsg max_retries base_delay =
      (AnalyzeResult.errorReturn (rateLimitErrDict max_retries),
        (List.range max_retries).map (fun k => base_delay * 2 ^ k)) := by
  unfold analyzeCodeChunk
  rw [analyzeLoop_allRateLimited oracle parseMsg base_delay max_retries max_retries 0
    (fun k hk1 hk2 => h k (by omega)), List.range_eq_range']

/-- Claim C2 witness: an oracle that always raises a message containing
429, with the default max_retries 5 and base_delay 5, yields exactly
the five sleeps 5, 10, 20, 40, 80 and the terminal error dict. -/
theorem C2_witness :
    analyzeCodeChunk (fun _ => CallOutcome.raises "429 Too Many Requests")
        (fun t => "Invalid json output: " ++ t) 5 5 =
      (AnalyzeResult.errorReturn (rateLimitErrDict 5),
        (List.range 5).map (fun k => (5 : ℚ) * 2 ^ k)) :=
  C2_retry_backoff (fun _ => CallOutcome.raises "429 Too Many Requests")
    (fun t => "Invalid json output: " ++ t) 5 5
    (fun k _ => ⟨"429 Too Many Requests", rfl, by decide⟩)

/-- Claim C3, amended: analyze_code_chunk never retries an exception
whose message is not classified as rate limiting, but it does not
return a Failure value for it either: the bare raise re-raises the
exception to the caller immediately, with no back-off sleep performed;
in the pipeline the Dispatcher loop of extract catches it and records
the chunk as a failure note. -/
theorem C3_non_retryable_raises (oracle : Nat → CallOutcome) (parseMsg : String → String)
    (max_retries : Nat) (base_delay : ℚ) (msg : String)
    (h0 : oracle 0 = CallOutcome.raises msg)
    (hrl : isRateLimitMsg msg = false)
    (hmr : 0 < max_retries) :
    analyzeCodeChunk oracle parseMsg max_retries base_delay =
      (AnalyzeResult.raised msg, []) := by
  unfold analyzeCodeChunk
  cases max_retries with
  | zero => omega
  | succ n => simp [analyzeLoop, h0, hrl]

/-- Claim C3 counterexample: an oracle whose call raises a
non-rate-limit error makes analyze_code_chunk propagate the exception
to its caller (the raised outcome), instead of returning a Failure
value with errorKind OracleError as the claim states. -/
theorem C3_counterexample :
    analyzeCodeChunk (fun _ => CallOutcome.raises "connection reset")
        (fun t => "Invalid json output: " ++ t) 5 5 =
      (AnalyzeResult.raised "connection reset", []) :=
  rfl

/-- Claim C3 witness: the amended theorem applied to a concrete
non-rate-limit message. -/
theorem C3_witness :
    analyzeCodeChunk (fun _ => CallOutcome.raises "oops")
        (fun t => "Invalid json output: " ++ t) 5 5 =
      (AnalyzeResult.raised "oops", []) :=
  C3_non_retryable_raises (fun _ => CallOutcome.raises "oops")
    (fun t => "Invalid json output: " ++ t) 5 5 "oops" rfl (by decide) (by decide)

/-- Claim C4, amended: when the oracle responds but the normalized text
fails to parse as JSON, analyze_code_chunk raises the parse exception to
its caller immediately and performs no retry and no sleep, provided the
parse exception's message is not classified as rate limiting; it never
returns a Failure value with errorKind ParseError.  A parse-error
message that happens to match the rate-limit classifier (for example
one containing 429) is instead retried like a rate-limit error, so the
behaviour is not independent of the message content. -/
theorem C4_parse_error_raises (oracle : Nat → CallOutcome) (parseMsg : String → String)
    (max_retries : Nat) (base_delay : ℚ) (raw : String)
    (h0 : oracle 0 = CallOutcome.ok raw)
    (hp : parseJson (cleanJsonString raw) = none)
    (hrl : isRateLimitMsg (parseMsg (cleanJsonString raw)) = false)
    (hmr : 0 < max_retries) :
    analyzeCodeChunk oracle parseMsg max_retries base_delay =
      (AnalyzeResult.raised (parseMsg (cleanJsonString raw)), []) := by
  unfold analyzeCodeChunk
  cases max_retries with
  | zero => omega
  | succ n => simp [analyzeLoop, h0, hp, hrl]

/-- Claim C4 counterexample: a response with no JSON object cleans to
the empty string, whose parse fails; analyze_code_chunk raises the
parse exception (the raised outcome) rather than returning a Failure
value with errorKind ParseError. -/
theorem C4_counterexample :
    analyzeCodeChunk (fun _ => CallOutcome.ok "no json here")
        (fun t => "Invalid json output: " ++ t) 5 5 =
      (AnalyzeResult.raised "Invalid json output: ", []) :=
  rfl

/-- Claim C4 witness: the amended theorem applied to a concrete
unparsable response. -/
theorem C4_witness :
    analyzeCodeChunk (fun _ => CallOutcome.ok "garbage")
        (fun t => "Invalid json output: " ++ t) 5 5 =
      (AnalyzeResult.raised "Invalid json output: ", []) :=
  C4_parse_error_raises (fun _ => CallOutcome.ok "garbage")
    (fun t => "Invalid json output: " ++ t) 5 5 "garbage" rfl (by rfl) (by decide) (by decide)

/-- Claim C6, confirmed: applied to the raw response consisting of the
object with overview x, methods empty, complexity low and empty notes,
surrounded by leading noise and trailing text, _clean_json_string
removes everything before the first opening brace and after the last
closing brace (there are no trailing commas to strip here), and the
resulting text parses to exactly that JSON object. -/
theorem C6_normalization :
    cleanJsonString
        "noise\x7b\"overview\":\"x\",\"methods\":[],\"complexity\":\"low\",\"notes\":\"\"\x7dtrailing" =
      "\x7b\"overview\":\"x\",\"methods\":[],\"complexity\":\"low\",\"notes\":\"\"\x7d" ∧
    parseJson
        (cleanJsonString
          "noise\x7b\"overview\":\"x\",\"methods\":[],\"complexity\":\"low\",\"notes\":\"\"\x7dtrailing") =
      some (Json.obj [("overview", Json.str "x"), ("methods", Json.arr []),
        ("complexity", Json.str "low"), ("notes", Json.str "")]) :=
  ⟨rfl, rfl⟩

/-- Claim C7, amended: when no readme document is supplied the
project-summary step yields the empty dict (not null and not an
error), and when a document is supplied but the read, oracle call or
parse fails with some message, it yields the dict with the single key
readme_error bound to that message; the step is a total function of the
outcome and never propagates the failure. -/
theorem C7_summarize (callSummary : String → Except String Json) (d msg : String)
    (hfail : callSummary d = Except.error msg) :
    summarizeStep none callSummary = Json.obj [] ∧
    summarizeStep (some d) callSummary = Json.obj [("readme_error", Json.str msg)] := by
  constructor
  · rfl
  · simp [summarizeStep, hfail]

/-- Claim C7 counterexample: with no document supplied the
project-summary step returns the empty dict, which is not the null
value the claim states. -/
theorem C7_counterexample :
    summarizeStep none (fun _ => Except.error "transport down") = Json.obj [] ∧
    Json.obj [] ≠ Json.null :=
  ⟨rfl, fun h => Json.noConfusion h⟩

/-- Claim C7 witness: the amended theorem applied to a failing oracle
transport and a concrete document. -/
theorem C7_witness :
    summarizeStep none (fun _ => Except.error "oracle down") = Json.obj [] ∧
    summarizeStep (some "valid doc") (fun _ => Except.error "oracle down") =
      Json.obj [("readme_error", Json.str "oracle down")] :=
  C7_summarize (fun _ => Except.error "oracle down") "valid doc" "oracle down" rfl

/-- Claim C8, amended: the empty input chunk sequence folds without
error to the aggregate whose overview, methods, complexity and notes
sequences are all empty and whose project info is the summary-step
value, which is the empty dict (not null) when no readme is present;
the pipeline entry point main_async, however, returns before running
the extractor when the chunk sequence is empty, so no aggregate is
produced there. -/
theorem C8_empty_input (document : Option String) (callSummary : String → Except String Json) :
    extract document callSummary [] = some (initKnowledge (summarizeStep document callSummary)) ∧
    extract none callSummary [] =
      some { project_info := Json.obj [], overview := [], methods := [],
             complexity := [], notes := [] } ∧
    mainRunsExtraction [] = false :=
  ⟨rfl, rfl, rfl⟩

/-- Claim C8 counterexample: for the empty input with no readme the
aggregate's project info is the empty dict, not null as the claim
states. -/
theorem C8_counterexample :
    (extract none (fun _ => Except.error "down") []).map Knowledge.project_info =
      some (Json.obj []) ∧
    Json.obj [] ≠ Json.null :=
  ⟨rfl, fun h => Json.noConfusion h⟩

/-- Claim C10, confirmed: a raw response containing no opening brace or
no closing brace normalizes to the empty string, and the empty string
does not parse as JSON, so such a response can never produce a
successfully parsed result. -/
theorem C10_no_brace_pair (s : String)
    (h : ('{' ∉ s.toList) ∨ ('}' ∉ s.toList)) :
    cleanJsonString s = "" ∧ parseJson (cleanJsonString s) = none := by
  have hmain : dropAfterLastBrace (dropBeforeBrace s.toList) = [] := by
    rcases h with h | h
    · have h1 : dropBeforeBrace s.toList = [] := by
        rw [dropBeforeBrace, List.dropWhile_eq_nil_iff]
        intro c hc
        simp only [bne_iff_ne, ne_eq]
        intro he
        exact h (he ▸ hc)
      rw [h1]
      rfl
    · have h1 : ∀ c ∈ dropBeforeBrace s.toList, c ≠ '}' := by
        intro c hc he
        exact h (he ▸ (List.dropWhile_sublist _).subset hc)
      have h2 : (dropBeforeBrace s.toList).reverse.dropWhile (fun c => c != '}') = [] := by
        rw [List.dropWhile_eq_nil_iff]
        intro c hc
        simp only [bne_iff_ne, ne_eq]
        exact h1 c (List.mem_reverse.mp hc)
      rw [dropAfterLastBrace, h2]
      rfl
  have hclean : cleanJsonString s = "" := by
    rw [cleanJsonString, hmain]
    rfl
  exact ⟨hclean, by rw [hclean]; rfl⟩

/-- Claim C10 witness: the theorem applied to a brace-free string. -/
theorem C10_witness :
    ('{' ∉ "abc".toList) ∧ cleanJsonString "abc" = "" ∧
      parseJson (cleanJsonString "abc") = none :=
  ⟨by decide, (C10_no_brace_pair "abc" (Or.inl (by decide))).1,
    (C10_no_brace_pair "abc" (Or.inl (by decide))).2⟩
